import Mathlib

/-!
Shallow embedding of the GD32 Zephyr test tooling
(`boards/gd/scripts/gd32_smart_test_selector.py` and
`boards/gd/scripts/gd32_local_tester.py`) together with theorems about the
test-plan generation engine, its export format, and the build-result
classifier.
-/

namespace GD32

/-! ### String utilities

Python's `pat in hay` substring test, modelled on the character lists of the
two strings. -/

/-- Boolean test that `pat` is an initial segment of `hay` (character lists). -/
def startsWithChars : List Char → List Char → Bool
  | [], _ => true
  | _ :: _, [] => false
  | p :: ps, h :: hs => p == h && startsWithChars ps hs

/-- Boolean test that `pat` occurs contiguously somewhere in `hay`
(character lists); Python's `pat in hay` on strings. -/
def hasSubChars (pat : List Char) : List Char → Bool
  | [] => startsWithChars pat []
  | h :: hs => startsWithChars pat (h :: hs) || hasSubChars pat hs

/-- Python's substring containment `pat in hay` for strings. -/
def strContains (hay pat : String) : Bool :=
  hasSubChars pat.toList hay.toList

/-- Python's `str.lower()`, modelled character by character. -/
def strToLower (s : String) : String :=
  String.mk (s.toList.map Char.toLower)

/-- Split a character list at every occurrence of the character `c`;
the pieces between occurrences, in order (Python's `s.split(c)`). -/
def splitOnChar (c : Char) : List Char → List (List Char)
  | [] => [[]]
  | h :: t =>
    match splitOnChar c t, h == c with
    | r, true => [] :: r
    | [], false => [[h]]
    | x :: xs, false => (h :: x) :: xs

/-- Python's `s.split('\n')` on strings. -/
def strSplitLines (s : String) : List String :=
  (splitOnChar (Char.ofNat 10) s.toList).map String.mk

/-- Python's `s.strip()`: drop leading and trailing whitespace. -/
def strTrim (s : String) : String :=
  String.mk (((s.toList.dropWhile Char.isWhitespace).reverse.dropWhile
    Char.isWhitespace).reverse)

/-- Python's `sep.join(parts)`. -/
def strJoin (sep : String) : List String → String
  | [] => ""
  | [x] => x
  | x :: y :: xs => x ++ sep ++ strJoin sep (y :: xs)

/-! ### Data model (`gd32_smart_test_selector.py`)

`BoardConfig` and `TestPlan` are the two dataclasses of the selector script.
Python dicts are modelled as association lists, which preserves both key
lookup and the (insertion-order) iteration order the script relies on. -/

/-- Board configuration dataclass: name, series, supported peripherals, and
the `test_suites` mapping from category name to declared test paths. -/
structure BoardConfig where
  name : String
  series : String
  peripherals : List String
  test_suites : List (String × List String)
  arch : String := "arm"
deriving DecidableEq

/-- A single generated test-plan entry (the `TestPlan` dataclass). -/
structure TestPlan where
  board : String
  test_path : String
  category : String
  required_peripherals : List String
deriving DecidableEq

/-- The `boards` value of a test group is either the YAML string `'all'` or a
literal list of board names. -/
inductive BoardsSel where
  | all : BoardsSel
  | boards (bs : List String) : BoardsSel
deriving DecidableEq

/-- A test-group record: its `tests` list and its `boards` selector (each
defaulting to empty when absent from the YAML, as `dict.get` does). -/
structure GroupConfig where
  tests : List String
  boards : BoardsSel
deriving DecidableEq

/-- The loaded configuration (`PeripheralMatrixLoader` after `load_config`):
the board registry and the test groups, both in configuration order. -/
structure Loader where
  boards : List (String × BoardConfig)
  test_groups : List (String × GroupConfig)
deriving DecidableEq

/-- `PeripheralMatrixLoader.get_board_config`: exact-key dictionary lookup. -/
def get_board_config (loader : Loader) (board_name : String) : Option BoardConfig :=
  List.lookup board_name loader.boards

/-- `PeripheralMatrixLoader.get_all_boards`: `list(self.boards.keys())`. -/
def get_all_boards (loader : Loader) : List String :=
  loader.boards.map Prod.fst

/-! ### Capability inference (`TestPlanGenerator._infer_required_peripherals`) -/

/-- `TestPlanGenerator._infer_required_peripherals`: the eight substring
checks on the lower-cased test path, appending in the fixed source order. -/
def _infer_required_peripherals (test_path : String) : List String :=
  let test_lower := strToLower test_path
  (if strContains test_lower "i2c" then ["i2c"] else []) ++
  (if strContains test_lower "spi" then ["spi"] else []) ++
  (if strContains test_lower "uart" || strContains test_lower "console" ||
      strContains test_lower "shell" then ["uart"] else []) ++
  (if strContains test_lower "gpio" || strContains test_lower "blinky" then ["gpio"] else []) ++
  (if strContains test_lower "can" then ["can"] else []) ++
  (if strContains test_lower "net" || strContains test_lower "ethernet" then ["ethernet"] else []) ++
  (if strContains test_lower "adc" then ["adc"] else []) ++
  (if strContains test_lower "pwm" then ["pwm"] else [])

/-- The eight-rule substring table exactly as the specification states it:
trigger substrings paired with the peripheral identifier they produce, in
the fixed check order. -/
def specRuleTable : List (List String × String) :=
  [ (["i2c"], "i2c"),
    (["spi"], "spi"),
    (["uart", "console", "shell"], "uart"),
    (["gpio", "blinky"], "gpio"),
    (["can"], "can"),
    (["net", "ethernet"], "ethernet"),
    (["adc"], "adc"),
    (["pwm"], "pwm") ]

/-- The specification's reading of the inference contract: apply the rule
table to the lower-cased path, keeping (in table order) the peripheral of
every rule one of whose substrings occurs in the path. -/
def specInfer (test_path : String) : List String :=
  (specRuleTable.filter
    (fun r => r.1.any fun s => strContains (strToLower test_path) s)).map Prod.snd

/-! ### Plan generation (`TestPlanGenerator`)

The three generation operations are modelled as the source writes them: an
accumulator list grown by `append` inside nested `for` loops. -/

/-- `TestPlanGenerator.generate_for_board`: soft-fails to `[]` when the board
is unknown; otherwise iterates `test_suites` (category outer, declared test
paths inner) and appends an entry exactly when every inferred peripheral is
among the board's peripherals. -/
def generate_for_board (loader : Loader) (board_name : String) : List TestPlan :=
  match get_board_config loader board_name with
  | none => []
  | some board_config =>
    board_config.test_suites.foldl
      (fun test_plans ct =>
        ct.2.foldl
          (fun tps test_path =>
            let required_peripherals := _infer_required_peripherals test_path
            if required_peripherals.all (fun p => board_config.peripherals.contains p) then
              tps ++ [{ board := board_name, test_path := test_path, category := ct.1,
                        required_peripherals := required_peripherals }]
            else tps)
          test_plans)
      []

/-- `TestPlanGenerator.generate_for_all_boards`: Python tests the filter for
truthiness, so `None` and the empty list both fall back to all known boards;
otherwise the filter list is used in its supplied order. -/
def generate_for_all_boards (loader : Loader) (board_filter : Option (List String)) :
    List TestPlan :=
  let boards :=
    match board_filter with
    | some bs => if bs.isEmpty then get_all_boards loader else bs
    | none => get_all_boards loader
  boards.foldl (fun all_plans board_name => all_plans ++ generate_for_board loader board_name) []

/-- `TestPlanGenerator.generate_by_group`: soft-fails to `[]` when the group
is unknown; resolves the `'all'` sentinel to every known board; then emits
one entry per (board, test path) pair with no compatibility filtering. -/
def generate_by_group (loader : Loader) (group_name : String) : List TestPlan :=
  match List.lookup group_name loader.test_groups with
  | none => []
  | some group_config =>
    let boards :=
      match group_config.boards with
      | BoardsSel.all => get_all_boards loader
      | BoardsSel.boards bs => bs
    boards.foldl
      (fun test_plans board =>
        group_config.tests.foldl
          (fun tps test_path =>
            tps ++ [{ board := board, test_path := test_path, category := group_name,
                      required_peripherals := _infer_required_peripherals test_path }])
          test_plans)
      []

/-! ### Export (`TestPlanGenerator.export_to_json`) -/

/-- One record of the exported `test_plans` array. -/
structure PlanRecord where
  board : String
  test_path : String
  category : String
  required_peripherals : List String
deriving DecidableEq

/-- The exported `summary` object. -/
structure PlanSummary where
  total_tests : Nat
  boards : Nat
  unique_tests : Nat
deriving DecidableEq

/-- The whole exported document. -/
structure ExportDoc where
  test_plans : List PlanRecord
  summary : PlanSummary
deriving DecidableEq

/-- The dictionary built by `export_to_json` before it is written out: one
record per plan entry in plan order, and the three summary counts, where
Python's `len(set(...))` is modelled as the length of the deduplicated
list. -/
def export_data (test_plans : List TestPlan) : ExportDoc :=
  { test_plans := test_plans.map fun plan =>
      { board := plan.board, test_path := plan.test_path, category := plan.category,
        required_peripherals := plan.required_peripherals },
    summary :=
      { total_tests := test_plans.length,
        boards := (test_plans.map fun plan => plan.board).dedup.length,
        unique_tests := (test_plans.map fun plan => plan.test_path).dedup.length } }

/-- Re-reading the exported `test_plans` array: the ordered sequence of
(board, test_path, category, required_peripherals) tuples it carries. -/
def read_test_plans (doc : ExportDoc) : List (String × String × String × List String) :=
  doc.test_plans.map fun r => (r.board, r.test_path, r.category, r.required_peripherals)

/-! ### Build classification (`gd32_local_tester.py`, `west_build`)

The subprocess call is an external collaborator; its observable outcome is
one of three cases, matching the `try`/`except` structure of `west_build`:
the process completed with an exit code and combined output, the
`TimeoutExpired` exception fired, or some other exception was raised. -/

/-- Observable outcome of the `subprocess.run` invocation in `west_build`. -/
inductive ProcOutcome where
  | completed (returncode : Int) (output : String) : ProcOutcome
  | timedOut : ProcOutcome
  | raised (msg : String) : ProcOutcome
deriving DecidableEq

/-- The `BuildResult` dataclass of the local tester. -/
structure BuildResult where
  board : String
  testcase : String
  success : Bool
  message : String
  duration : Nat
  build_dir : Option String := none
  log_output : String := ""
deriving DecidableEq

/-- `MAX_LOG_LENGTH` constant of the local tester. -/
def MAX_LOG_LENGTH : Nat := 1000

/-- Python's `lst[-n:]`: the last `n` elements of a list. -/
def lastN {α : Type} (n : Nat) (l : List α) : List α :=
  l.drop (l.length - n)

/-- Python's `s[-n:] if len(s) > n else s` on the captured output. -/
def truncateLog (output : String) : String :=
  if output.length > MAX_LOG_LENGTH then
    String.mk (output.toList.drop (output.length - MAX_LOG_LENGTH))
  else output

/-- The diagnostic extraction of `west_build` for a non-zero exit: the last
five lines containing an error marker (`error:` or `fatal error:` in the
lower-cased line), or, when there are none, the last ten lines of the
stripped output. -/
def extract_error_msg (output : String) : String :=
  let error_lines := (strSplitLines output).filter fun line =>
    strContains (strToLower line) "error:" || strContains (strToLower line) "fatal error:"
  if error_lines.isEmpty then
    strJoin "\n" (lastN 10 (strSplitLines (strTrim output)))
  else
    strJoin "\n" (lastN 5 error_lines)

/-- `west_build`, given the observable outcome of the subprocess invocation
(`duration` stands for the wall-clock time measured in the completed and
raised branches; the timeout branch records the timeout itself). -/
def west_build (board testcase_name : String) (timeout : Nat) (build_dir : String)
    (outcome : ProcOutcome) (duration : Nat) : BuildResult :=
  match outcome with
  | ProcOutcome.completed rc output =>
    if rc = 0 then
      { board := board, testcase := testcase_name, success := true,
        message := "Build successful", duration := duration,
        build_dir := some build_dir, log_output := truncateLog output }
    else
      { board := board, testcase := testcase_name, success := false,
        message := "Build failed:\n" ++ extract_error_msg output, duration := duration,
        build_dir := some build_dir, log_output := truncateLog output }
  | ProcOutcome.timedOut =>
    { board := board, testcase := testcase_name, success := false,
      message := "Build timeout after " ++ toString timeout ++ "s", duration := timeout,
      build_dir := none, log_output := "Build timed out" }
  | ProcOutcome.raised emsg =>
    { board := board, testcase := testcase_name, success := false,
      message := "Build error: " ++ emsg, duration := duration,
      build_dir := none, log_output := emsg }

/-- The resolved board list a group iterates: the literal list, or all known
boards for the `'all'` sentinel. -/
def resolve_group_boards (loader : Loader) (sel : BoardsSel) : List String :=
  match sel with
  | BoardsSel.all => get_all_boards loader
  | BoardsSel.boards bs => bs

/-! ### Concrete configurations used to instantiate the theorems -/

/-- The specification's running example board: `gd32f407v_start` with
peripherals `gpio` and `uart` and one declared `basic` test. -/
def blinkyBoard : BoardConfig :=
  { name := "gd32f407v_start", series := "gd32f4xx", peripherals := ["gpio", "uart"],
    test_suites := [("basic", ["samples/basic/blinky"])] }

/-- A one-board configuration holding `blinkyBoard` and no test groups. -/
def blinkyLoader : Loader :=
  { boards := [("gd32f407v_start", blinkyBoard)], test_groups := [] }

/-- A configuration whose only board supports no peripherals, with a test
group that pairs that board with an i2c test. -/
def mismatchLoader : Loader :=
  { boards := [("gd32e507z_eval",
      { name := "gd32e507z_eval", series := "gd32e50x", peripherals := [],
        test_suites := [] })],
    test_groups := [("essential",
      { tests := ["tests/drivers/i2c"], boards := BoardsSel.boards ["gd32e507z_eval"] })] }

/-- The single plan entry generated for `blinkyLoader`. -/
def blinkyEntry : TestPlan :=
  { board := "gd32f407v_start", test_path := "samples/basic/blinky", category := "basic",
    required_peripherals := ["gpio"] }

/-! ### Helper lemmas -/

/-- A left fold whose step appends a per-element block to the accumulator
computes the accumulator followed by the concatenation of the blocks. -/
lemma foldl_extend {α β : Type} (step : List β → α → List β) (f : α → List β)
    (hstep : ∀ acc x, step acc x = acc ++ f x) :
    ∀ (l : List α) (acc : List β), l.foldl step acc = acc ++ l.flatMap f := by
  intro l
  induction l with
  | nil => intro acc; simp
  | cons x xs ih =>
    intro acc
    rw [List.foldl_cons, hstep, ih, List.flatMap_cons, List.append_assoc]

/-- Concatenating conditional singletons is filtering then mapping. -/
lemma flatMap_ite_singleton {α β : Type} (p : α → Bool) (g : α → β) (l : List α) :
    (l.flatMap fun x => if p x then [g x] else []) = (l.filter p).map g := by
  induction l with
  | nil => rfl
  | cons x xs ih =>
    rw [List.flatMap_cons, List.filter_cons, ih]
    by_cases hx : p x <;> simp [hx]

/-- The inner loop of `generate_for_board` over one category's test list. -/
lemma board_inner_foldl (bn cat : String) (periphs : List String) (tests : List String)
    (acc : List TestPlan) :
    tests.foldl
      (fun tps test_path =>
        let required_peripherals := _infer_required_peripherals test_path
        if required_peripherals.all (fun p => periphs.contains p) then
          tps ++ [{ board := bn, test_path := test_path, category := cat,
                    required_peripherals := required_peripherals }]
        else tps)
      acc
    = acc ++ (tests.filter fun tp =>
        (_infer_required_peripherals tp).all fun p => periphs.contains p).map
        (fun tp => { board := bn, test_path := tp, category := cat,
                     required_peripherals := _infer_required_peripherals tp }) := by
  refine (foldl_extend _
    (fun tp =>
      if (_infer_required_peripherals tp).all (fun p => periphs.contains p) then
        [{ board := bn, test_path := tp, category := cat,
           required_peripherals := _infer_required_peripherals tp }]
      else [])
    (fun a tp => by dsimp only; split <;> simp) tests acc).trans ?_
  rw [flatMap_ite_singleton]

/-- `generate_for_board` on a known board is the declared-order flatMap of
the compatibility-filtered test lists. -/
lemma generate_for_board_eq (loader : Loader) (bn : String) (bc : BoardConfig)
    (h : get_board_config loader bn = some bc) :
    generate_for_board loader bn =
      bc.test_suites.flatMap fun ct =>
        (ct.2.filter fun tp =>
          (_infer_required_peripherals tp).all fun p => bc.peripherals.contains p).map
          fun tp => { board := bn, test_path := tp, category := ct.1,
                      required_peripherals := _infer_required_peripherals tp } := by
  unfold generate_for_board
  rw [h]
  exact (foldl_extend _ _
    (fun acc ct => board_inner_foldl bn ct.1 bc.peripherals ct.2 acc)
    bc.test_suites []).trans (by rw [List.nil_append])

/-- The eight-conditional append chain of the source equals the filtered
rule table of the specification. -/
lemma infer_eq_specInfer (p : String) :
    _infer_required_peripherals p = specInfer p := by
  unfold _infer_required_peripherals specInfer specRuleTable
  simp only [List.filter_cons, List.filter_nil, List.any_cons, List.any_nil, Bool.or_false,
    apply_ite (List.map Prod.snd), List.map_cons, List.map_nil]
  generalize strContains (strToLower p) "i2c" = c1
  generalize strContains (strToLower p) "spi" = c2
  generalize strContains (strToLower p) "uart" = c3
  generalize strContains (strToLower p) "console" = c4
  generalize strContains (strToLower p) "shell" = c5
  generalize strContains (strToLower p) "gpio" = c6
  generalize strContains (strToLower p) "blinky" = c7
  generalize strContains (strToLower p) "can" = c8
  generalize strContains (strToLower p) "net" = c9
  generalize strContains (strToLower p) "ethernet" = c10
  generalize strContains (strToLower p) "adc" = c11
  generalize strContains (strToLower p) "pwm" = c12
  revert c1 c2 c3 c4 c5 c6 c7 c8 c9 c10 c11 c12
  decide

/-- Concatenating unconditional singletons is mapping. -/
lemma flatMap_singleton_eq_map {α β : Type} (g : α → β) (l : List α) :
    (l.flatMap fun x => [g x]) = l.map g := by
  induction l with
  | nil => rfl
  | cons x xs ih => rw [List.flatMap_cons, ih, List.map_cons, List.singleton_append]

/-- `generate_by_group` on a known group is the unfiltered flatMap: every
resolved board paired with every declared test path. -/
lemma generate_by_group_eq (loader : Loader) (gname : String) (gc : GroupConfig)
    (h : List.lookup gname loader.test_groups = some gc) :
    generate_by_group loader gname =
      (resolve_group_boards loader gc.boards).flatMap fun board =>
        gc.tests.map fun tp =>
          { board := board, test_path := tp, category := gname,
            required_peripherals := _infer_required_peripherals tp } := by
  unfold generate_by_group
  rw [h]
  refine (foldl_extend _
    (fun board => gc.tests.map fun tp =>
      { board := board, test_path := tp, category := gname,
        required_peripherals := _infer_required_peripherals tp })
    (fun acc board => ?_) (resolve_group_boards loader gc.boards) []).trans
    (by rw [List.nil_append])
  refine (foldl_extend _
    (fun tp => [{ board := board, test_path := tp, category := gname,
                  required_peripherals := _infer_required_peripherals tp }])
    (fun a tp => rfl) gc.tests acc).trans ?_
  rw [flatMap_singleton_eq_map]

/-- The no-filter branch of `generate_for_all_boards` concatenates per-board
plans over all known boards. -/
lemma generate_for_all_boards_none (loader : Loader) :
    generate_for_all_boards loader none =
      (get_all_boards loader).flatMap (generate_for_board loader) := by
  unfold generate_for_all_boards
  exact (foldl_extend _ (generate_for_board loader) (fun acc bn => rfl)
    (get_all_boards loader) []).trans (by rw [List.nil_append])

/-- The non-empty-filter branch of `generate_for_all_boards` concatenates
per-board plans over the filter in its supplied order. -/
lemma generate_for_all_boards_some (loader : Loader) (bs : List String) (hbs : bs ≠ []) :
    generate_for_all_boards loader (some bs) = bs.flatMap (generate_for_board loader) := by
  unfold generate_for_all_boards
  dsimp only
  rw [if_neg (by simpa [List.isEmpty_iff] using hbs)]
  exact (foldl_extend _ (generate_for_board loader) (fun acc bn => rfl) bs []).trans
    (by rw [List.nil_append])

/-- Every entry generated for a single board names that board, carries its
inferred peripherals, and only peripherals the board supports. -/
lemma mem_generate_for_board (loader : Loader) (bn : String) (e : TestPlan)
    (he : e ∈ generate_for_board loader bn) :
    ∃ bc, get_board_config loader bn = some bc ∧ e.board = bn ∧
      e.required_peripherals = _infer_required_peripherals e.test_path ∧
      ∀ p ∈ e.required_peripherals, p ∈ bc.peripherals := by
  cases h : get_board_config loader bn with
  | none =>
    rw [generate_for_board, h] at he
    simp at he
  | some bc =>
    refine ⟨bc, rfl, ?_⟩
    rw [generate_for_board_eq loader bn bc h] at he
    simp only [List.mem_flatMap, List.mem_map, List.mem_filter] at he
    obtain ⟨ct, -, tp, ⟨-, hall⟩, rfl⟩ := he
    refine ⟨rfl, rfl, fun p hp => ?_⟩
    have := (List.all_eq_true.mp hall) p hp
    exact List.elem_iff.mp this

/-- The inferred peripheral list is a sublist of the table's output column,
hence duplicate-free. -/
lemma infer_nodup (p : String) : (_infer_required_peripherals p).Nodup := by
  rw [infer_eq_specInfer]
  refine List.Nodup.sublist (List.Sublist.map Prod.snd (List.filter_sublist specRuleTable)) ?_
  decide

/-- A flatMap whose blocks all have length `n` has length `n` times the
number of blocks. -/
lemma length_flatMap_const {α β : Type} (f : α → List β) (n : Nat)
    (hf : ∀ a, (f a).length = n) : ∀ l : List α, (l.flatMap f).length = l.length * n := by
  intro l
  induction l with
  | nil => simp
  | cons x xs ih =>
    rw [List.flatMap_cons, List.length_append, hf, ih, List.length_cons, Nat.succ_mul,
      Nat.add_comm]

/-- Every entry of `generate_for_all_boards` comes from `generate_for_board`
on some board name. -/
lemma mem_generate_for_all_boards (loader : Loader) (bf : Option (List String))
    (e : TestPlan) (he : e ∈ generate_for_all_boards loader bf) :
    ∃ bn, e ∈ generate_for_board loader bn := by
  cases bf with
  | none =>
    rw [generate_for_all_boards_none] at he
    obtain ⟨bn, -, hbn⟩ := List.mem_flatMap.mp he
    exact ⟨bn, hbn⟩
  | some bs =>
    by_cases hbs : bs = []
    · subst hbs
      have he' : e ∈ generate_for_all_boards loader none := he
      rw [generate_for_all_boards_none] at he'
      obtain ⟨bn, -, hbn⟩ := List.mem_flatMap.mp he'
      exact ⟨bn, hbn⟩
    · rw [generate_for_all_boards_some loader bs hbs] at he
      obtain ⟨bn, -, hbn⟩ := List.mem_flatMap.mp he
      exact ⟨bn, hbn⟩

/-! ### Claim theorems -/

/-- C1: for a known board, `generate_for_board` walks the `test_suites`
mapping with the category as outer loop in declared order and the test path
as inner loop in declared order, and produces an entry exactly when every
inferred peripheral is among the board's peripherals; a test path whose
inferred requirement list is empty is always included, and no produced
entry requires a peripheral the board lacks. -/
theorem generate_for_board_filters_by_capability (loader : Loader) (board_name : String)
    (bc : BoardConfig) (h : get_board_config loader board_name = some bc) :
    (generate_for_board loader board_name =
      bc.test_suites.flatMap fun ct =>
        (ct.2.filter fun tp =>
          (_infer_required_peripherals tp).all fun p => bc.peripherals.contains p).map
          fun tp => { board := board_name, test_path := tp, category := ct.1,
                      required_peripherals := _infer_required_peripherals tp }) ∧
    (∀ cat tests tp, (cat, tests) ∈ bc.test_suites → tp ∈ tests →
      _infer_required_peripherals tp = [] →
      ({ board := board_name, test_path := tp, category := cat,
         required_peripherals := ([] : List String) } : TestPlan) ∈
        generate_for_board loader board_name) ∧
    ∀ e ∈ generate_for_board loader board_name,
      ∀ p ∈ e.required_peripherals, p ∈ bc.peripherals := by
  have heq := generate_for_board_eq loader board_name bc h
  refine ⟨heq, ?_, ?_⟩
  · intro cat tests tp hct htp hinf
    rw [heq, List.mem_flatMap]
    refine ⟨(cat, tests), hct, ?_⟩
    rw [List.mem_map]
    refine ⟨tp, ?_, ?_⟩
    · rw [List.mem_filter]
      exact ⟨htp, by rw [hinf]; rfl⟩
    · rw [hinf]
  · intro e he p hp
    obtain ⟨bc', h', -, -, hsub⟩ := mem_generate_for_board loader board_name e he
    rw [h] at h'
    injection h' with hbc
    subst hbc
    exact hsub p hp

/-- Closed instance of C1's theorem on the example configuration: the
blinky test is emitted for `gd32f407v_start` with its inferred `gpio`
requirement. -/
theorem generate_for_board_filters_by_capability_witness :
    ({ board := "gd32f407v_start", test_path := "samples/basic/blinky", category := "basic",
       required_peripherals := ["gpio"] } : TestPlan) ∈
      generate_for_board blinkyLoader "gd32f407v_start" := by
  have h := generate_for_board_filters_by_capability blinkyLoader "gd32f407v_start"
    blinkyBoard (by decide)
  rw [h.1]
  decide

/-- C2: `_infer_required_peripherals` returns exactly the rule table of the
specification applied to the lower-cased path in the fixed check order, its
output never holds a duplicate identifier, and a path matching no rule
yields the empty sequence. -/
theorem infer_matches_rule_table (p : String) :
    _infer_required_peripherals p = specInfer p ∧
    (_infer_required_peripherals p).Nodup ∧
    ((∀ r ∈ specRuleTable, ∀ s ∈ r.1, strContains (strToLower p) s = false) →
      _infer_required_peripherals p = []) := by
  refine ⟨infer_eq_specInfer p, infer_nodup p, fun hnone => ?_⟩
  have hfil : specRuleTable.filter
      (fun r => r.1.any fun s => strContains (strToLower p) s) = [] := by
    rw [List.filter_eq_nil_iff]
    intro r hr
    simp only [Bool.not_eq_true, List.any_eq_false]
    intro s hs
    simp [hnone r hr s hs]
  rw [infer_eq_specInfer]
  unfold specInfer
  rw [hfil]
  rfl

/-- Closed instance of C2's theorem: a path with no recognized substring
infers no peripherals. -/
theorem infer_matches_rule_table_witness :
    _infer_required_peripherals "tests/kernel/common" = [] :=
  (infer_matches_rule_table "tests/kernel/common").2.2 (by decide)

/-- C6: a board name or group name absent from the configuration makes the
corresponding generation operation return the empty plan. -/
theorem unknown_reference_yields_empty (loader : Loader) (board_name group_name : String)
    (hb : get_board_config loader board_name = none)
    (hg : List.lookup group_name loader.test_groups = none) :
    generate_for_board loader board_name = [] ∧
    generate_by_group loader group_name = [] := by
  constructor
  · unfold generate_for_board
    rw [hb]
  · unfold generate_by_group
    rw [hg]

/-- Closed instance of C6's theorem: names absent from the example
configuration yield empty plans. -/
theorem unknown_reference_yields_empty_witness :
    generate_for_board blinkyLoader "gd32f999x_eval" = [] ∧
    generate_by_group blinkyLoader "essential" = [] :=
  unknown_reference_yields_empty blinkyLoader "gd32f999x_eval" "essential"
    (by decide) (by decide)

/-- C7: the exported summary counts every entry once, and counts boards and
test paths with set semantics, as on the specification's three-entry
example. -/
theorem export_summary_counts (plans : List TestPlan) :
    (export_data plans).summary.total_tests = plans.length ∧
    (export_data plans).summary.boards = (plans.map fun e => e.board).toFinset.card ∧
    (export_data plans).summary.unique_tests =
      (plans.map fun e => e.test_path).toFinset.card ∧
    (export_data
      [{ board := "A", test_path := "t1", category := "c", required_peripherals := [] },
       { board := "A", test_path := "t2", category := "c", required_peripherals := [] },
       { board := "B", test_path := "t1", category := "c", required_peripherals := [] }]).summary
      = { total_tests := 3, boards := 2, unique_tests := 2 } := by
  exact ⟨rfl, (List.card_toFinset _).symm, (List.card_toFinset _).symm, by decide⟩

/-- C8: re-reading the exported `test_plans` array reconstructs the plan's
ordered (board, test_path, category, required_peripherals) tuples, and no
entry is dropped. -/
theorem export_round_trip (plans : List TestPlan) :
    read_test_plans (export_data plans) =
      plans.map (fun e => (e.board, e.test_path, e.category, e.required_peripherals)) ∧
    (export_data plans).test_plans.length = plans.length := by
  constructor
  · unfold read_test_plans export_data
    rw [List.map_map]
    rfl
  · exact List.length_map _ _

/-- C3 counterexample: `generate_by_group` emits an entry that requires
`i2c` although the board it references supports no peripherals at all, so
not every produced entry satisfies the peripheral-subset invariant. -/
theorem group_entry_violates_peripheral_invariant :
    ∃ e ∈ generate_by_group mismatchLoader "essential",
      ∃ bc, get_board_config mismatchLoader e.board = some bc ∧
        ¬ ∀ p ∈ e.required_peripherals, p ∈ bc.peripherals := by
  refine ⟨{ board := "gd32e507z_eval", test_path := "tests/drivers/i2c",
            category := "essential", required_peripherals := ["i2c"] }, by decide,
    { name := "gd32e507z_eval", series := "gd32e50x", peripherals := [],
      test_suites := [] }, by decide, by decide⟩

/-- C3 amended: every entry produced by `generate_for_board` or
`generate_for_all_boards` only requires peripherals present in the
referenced board's peripheral list; `generate_by_group` does not filter and
is exempt. -/
theorem plan_entries_respect_board_peripherals (loader : Loader) :
    (∀ bn, ∀ e ∈ generate_for_board loader bn,
      ∃ bc, get_board_config loader e.board = some bc ∧
        ∀ p ∈ e.required_peripherals, p ∈ bc.peripherals) ∧
    ∀ bf, ∀ e ∈ generate_for_all_boards loader bf,
      ∃ bc, get_board_config loader e.board = some bc ∧
        ∀ p ∈ e.required_peripherals, p ∈ bc.peripherals := by
  have hb : ∀ bn, ∀ e ∈ generate_for_board loader bn,
      ∃ bc, get_board_config loader e.board = some bc ∧
        ∀ p ∈ e.required_peripherals, p ∈ bc.peripherals := by
    intro bn e he
    obtain ⟨bc, h, hbd, -, hsub⟩ := mem_generate_for_board loader bn e he
    exact ⟨bc, by rw [hbd]; exact h, hsub⟩
  refine ⟨hb, fun bf e he => ?_⟩
  obtain ⟨bn, hbn⟩ := mem_generate_for_all_boards loader bf e he
  exact hb bn e hbn

/-- Closed instance of C3's amended theorem: the blinky entry of the example
configuration only requires peripherals its board supports. -/
theorem plan_entries_respect_board_peripherals_witness :
    ∃ bc, get_board_config blinkyLoader blinkyEntry.board = some bc ∧
      ∀ p ∈ blinkyEntry.required_peripherals, p ∈ bc.peripherals :=
  (plan_entries_respect_board_peripherals blinkyLoader).1 "gd32f407v_start"
    blinkyEntry (by decide)

/-- C4: for a known group, `generate_by_group` resolves the board selector
(the `'all'` sentinel to the full known-board list in enumeration order,
otherwise the declared literal list), and emits one entry per (board, test
path) pair — board outer, test inner — with no peripheral filtering, so the
plan length is the product of the two list lengths. -/
theorem generate_by_group_pairs_all_tests (loader : Loader) (group_name : String)
    (gc : GroupConfig) (h : List.lookup group_name loader.test_groups = some gc) :
    (generate_by_group loader group_name =
      (resolve_group_boards loader gc.boards).flatMap fun board =>
        gc.tests.map fun tp =>
          { board := board, test_path := tp, category := group_name,
            required_peripherals := _infer_required_peripherals tp }) ∧
    (gc.boards = BoardsSel.all →
      resolve_group_boards loader gc.boards = get_all_boards loader) ∧
    (∀ bs, gc.boards = BoardsSel.boards bs → resolve_group_boards loader gc.boards = bs) ∧
    (generate_by_group loader group_name).length =
      (resolve_group_boards loader gc.boards).length * gc.tests.length := by
  have heq := generate_by_group_eq loader group_name gc h
  refine ⟨heq, fun hall => by rw [hall]; rfl, fun bs hbs => by rw [hbs]; rfl, ?_⟩
  rw [heq]
  exact length_flatMap_const _ gc.tests.length (fun b => List.length_map _ _) _

/-- Closed instance of C4's theorem: the example group pairs its one board
with its one test, unfiltered. -/
theorem generate_by_group_pairs_all_tests_witness :
    (generate_by_group mismatchLoader "essential").length = 1 := by
  have h := generate_by_group_pairs_all_tests mismatchLoader "essential"
    { tests := ["tests/drivers/i2c"], boards := BoardsSel.boards ["gd32e507z_eval"] }
    (by decide)
  rw [h.2.2.2]
  decide

/-- C5 counterexample: called with an empty (but present) board filter, the
result is not the concatenation of `generate_for_board` over the filter's
boards — that concatenation is empty while the result is not. -/
theorem all_boards_empty_filter_counterexample :
    generate_for_all_boards blinkyLoader (some []) ≠
      ([] : List String).flatMap (generate_for_board blinkyLoader) := by
  decide

/-- C5 amended: with no filter, `generate_for_all_boards` concatenates
`generate_for_board` over the known boards in enumeration order; with a
non-empty filter, over the filter's boards in supplied order. -/
theorem all_boards_concatenation (loader : Loader) :
    (generate_for_all_boards loader none =
      (get_all_boards loader).flatMap (generate_for_board loader)) ∧
    ∀ bs : List String, bs ≠ [] →
      generate_for_all_boards loader (some bs) = bs.flatMap (generate_for_board loader) :=
  ⟨generate_for_all_boards_none loader,
    fun bs hbs => generate_for_all_boards_some loader bs hbs⟩

/-- Closed instance of C5's amended theorem on a one-board filter. -/
theorem all_boards_concatenation_witness :
    generate_for_all_boards blinkyLoader (some ["gd32f407v_start"]) =
      ["gd32f407v_start"].flatMap (generate_for_board blinkyLoader) :=
  (all_boards_concatenation blinkyLoader).2 ["gd32f407v_start"] (by decide)

/-- C9: `west_build` always returns a `BuildResult`; a completed process is
classified by its exit status (success exactly on a zero status, the failure
message carrying the extracted error lines), a timeout and an invocation
exception both yield a failed result with their diagnostic messages, and the
captured output is truncated. -/
theorem west_build_classifies_by_exit_status (board tcname : String) (timeout : Nat)
    (bdir : String) (rc : Int) (output emsg : String) (dur : Nat) :
    ((west_build board tcname timeout bdir (ProcOutcome.completed rc output) dur).success
      = decide (rc = 0)) ∧
    ((west_build board tcname timeout bdir (ProcOutcome.completed rc output) dur).message
      = if rc = 0 then "Build successful"
        else "Build failed:\n" ++ extract_error_msg output) ∧
    ((west_build board tcname timeout bdir (ProcOutcome.completed rc output) dur).log_output
      = truncateLog output) ∧
    ((west_build board tcname timeout bdir ProcOutcome.timedOut dur).success = false) ∧
    ((west_build board tcname timeout bdir ProcOutcome.timedOut dur).message
      = "Build timeout after " ++ toString timeout ++ "s") ∧
    ((west_build board tcname timeout bdir (ProcOutcome.raised emsg) dur).success = false) ∧
    ((west_build board tcname timeout bdir (ProcOutcome.raised emsg) dur).message
      = "Build error: " ++ emsg) := by
  unfold west_build
  by_cases hrc : rc = 0 <;> simp [hrc]

/-- C10: because the board filter is tested for truthiness, an empty filter
list behaves exactly like no filter, as on the example configuration where
it yields a non-empty plan rather than the empty one. -/
theorem empty_filter_treated_as_no_filter (loader : Loader) :
    generate_for_all_boards loader (some []) = generate_for_all_boards loader none ∧
    generate_for_all_boards blinkyLoader (some []) ≠ [] :=
  ⟨rfl, by decide⟩

end GD32
